import Mathlib

/-!
Shallow embedding of the tierlist-maker bot (src/main.py) and proofs of the
frozen claims about it.

Python dictionaries are modelled as insertion-ordered association lists
(`PyDict`): `d[k] = v` updates the value in place when `k` is present
(keeping its position) and appends `(k, v)` at the end otherwise, `del d[k]`
removes the binding, and iteration follows the list order.  This captures the
insertion-order semantics of CPython dicts which the renderer's grid layout
depends on.
-/

/-- Python dict as an insertion-ordered association list. -/
abbrev PyDict (K V : Type) := List (K × V)

namespace PyDict

variable {K V : Type} [DecidableEq K]

/-- Python `k in d`. -/
def hasKey (d : PyDict K V) (k : K) : Bool :=
  d.any (fun p => decide (p.1 = k))

/-- Python `d[k]` as an optional lookup (`none` models a raised `KeyError`). -/
def getItem? : PyDict K V → K → Option V
  | [], _ => none
  | (k', v) :: rest, k => if k' = k then some v else getItem? rest k

/-- Python `d[k] = v`: update in place if the key exists, else append. -/
def setItem : PyDict K V → K → V → PyDict K V
  | [], k, v => [(k, v)]
  | (k', v') :: rest, k, v =>
      if k' = k then (k, v) :: rest else (k', v') :: setItem rest k v

/-- Python `del d[k]`. -/
def delItem (d : PyDict K V) (k : K) : PyDict K V :=
  d.filter (fun p => decide (p.1 ≠ k))

end PyDict

/-- A member snapshot (src/main.py lines 25-28). -/
structure Member where
  name : String
  avatar_url : String
  deriving DecidableEq, Repr

/-- The fixed tier enumeration (src/main.py lines 30-36). -/
inductive Tier
  | S | A | B | C | D | F
  deriving DecidableEq, Repr

instance : Fintype Tier :=
  ⟨⟨{.S, .A, .B, .C, .D, .F}, by decide⟩, fun t => by cases t <;> decide⟩

/-- Iteration order of the `self.tiers` dict: the `Tier` enum declaration
order, fixed at `Tierlist.__init__` (src/main.py line 40). -/
def tierOrder : List Tier := [.S, .A, .B, .C, .D, .F]

/-- Per-tier member dict, `Dict[int, Member]` in the source. -/
abbrev MemberMap := PyDict Nat Member

/-- The `Tierlist.tiers` dict, one insertion-ordered member map per tier
(src/main.py lines 38-40).  The six keys are fixed, so the dict is a record. -/
structure Tierlist where
  tierS : MemberMap
  tierA : MemberMap
  tierB : MemberMap
  tierC : MemberMap
  tierD : MemberMap
  tierF : MemberMap
  deriving DecidableEq, Repr

namespace Tierlist

/-- `Tierlist()` — every tier starts empty. -/
def empty : Tierlist := ⟨[], [], [], [], [], []⟩

/-- `self.tiers[t]`. -/
def get : Tierlist → Tier → MemberMap
  | tl, .S => tl.tierS
  | tl, .A => tl.tierA
  | tl, .B => tl.tierB
  | tl, .C => tl.tierC
  | tl, .D => tl.tierD
  | tl, .F => tl.tierF

/-- `self.tiers[t] = m` (used to model in-place mutation of one tier). -/
def set : Tierlist → Tier → MemberMap → Tierlist
  | tl, .S, m => { tl with tierS := m }
  | tl, .A, m => { tl with tierA := m }
  | tl, .B, m => { tl with tierB := m }
  | tl, .C, m => { tl with tierC := m }
  | tl, .D, m => { tl with tierD := m }
  | tl, .F, m => { tl with tierF := m }

/-- The shared search loop `for tier in self.tiers: if _id in ...: del ...; break`
(src/main.py lines 46-49 and 55-58): walks the tiers in `ts` order, deletes
`id` from the first tier containing it and stops; the Bool records whether a
deletion happened. -/
def removeLoop : Tierlist → Nat → List Tier → Bool × Tierlist
  | tl, _, [] => (false, tl)
  | tl, id, t :: ts =>
      if (tl.get t).hasKey id then (true, tl.set t ((tl.get t).delItem id))
      else removeLoop tl id ts

/-- `Tierlist.add_member` (src/main.py lines 42-52).  The `target_tier` value
is an arbitrary runtime object: `some t` is a member of the `Tier` enum,
`none` models any value failing the `target_tier not in Tier` check. -/
def add_member (tl : Tierlist) (id : Nat) (data : Member) (target_tier : Option Tier) :
    Bool × Tierlist :=
  match target_tier with
  | none => (false, tl)
  | some t =>
      let tl' := (removeLoop tl id tierOrder).2
      (true, tl'.set t ((tl'.get t).setItem id data))

/-- `Tierlist.remove_member` (src/main.py lines 54-60). -/
def remove_member (tl : Tierlist) (id : Nat) : Bool × Tierlist :=
  removeLoop tl id tierOrder

/-- The uniqueness invariant: an id is held by at most one tier. -/
def uniqueInv (tl : Tierlist) : Prop :=
  ∀ id t t', (tl.get t).hasKey id = true → (tl.get t').hasKey id = true → t = t'

/-- Tierlist states reachable by any sequence of add/remove calls from a
fresh `Tierlist()`. -/
inductive Reachable : Tierlist → Prop
  | init : Reachable empty
  | add (tl : Tierlist) (id : Nat) (d : Member) (t : Option Tier) :
      Reachable tl → Reachable (tl.add_member id d t).2
  | remove (tl : Tierlist) (id : Nat) :
      Reachable tl → Reachable (tl.remove_member id).2

end Tierlist

/-- `TierlistError` (src/main.py lines 62-67): the closed result enumeration. -/
inductive TierlistError
  | SUCCESS | USER_NOT_FOUND | INVALID_TIER | TIERLIST_NOT_ACTIVE | TIERLIST_ALREADY_ACTIVE
  deriving DecidableEq, Repr

/-- `TierlistManager` state (src/main.py lines 69-72). -/
structure TierlistManager where
  tierlists : PyDict String Tierlist
  currently_active : Option String
  deriving DecidableEq, Repr

namespace TierlistManager

/-- `TierlistManager()` — no lists, none active. -/
def init : TierlistManager := ⟨[], none⟩

/-- `begin_tierlist` (src/main.py lines 74-83). -/
def begin_tierlist (m : TierlistManager) (name : String) :
    TierlistError × TierlistManager :=
  match m.currently_active with
  | some _ => (.TIERLIST_ALREADY_ACTIVE, m)
  | none =>
      if m.tierlists.hasKey name then
        (.SUCCESS, { m with currently_active := some name })
      else
        (.SUCCESS, ⟨m.tierlists.setItem name Tierlist.empty, some name⟩)

/-- `end_tierlist` (src/main.py lines 85-90). -/
def end_tierlist (m : TierlistManager) : TierlistError × TierlistManager :=
  match m.currently_active with
  | some _ => (.SUCCESS, { m with currently_active := none })
  | none => (.TIERLIST_NOT_ACTIVE, m)

/-- `add_to_tierlist` (src/main.py lines 92-99).  The dict lookup
`self.tierlists[self.currently_active]` can raise `KeyError`; a raise is
modelled as `none`.  The active tierlist is mutated in place, modelled by
storing the updated value back at the same key. -/
def add_to_tierlist (m : TierlistManager) (id : Nat) (data : Member)
    (target_tier : Option Tier) : Option (TierlistError × TierlistManager) :=
  match m.currently_active with
  | none => some (.TIERLIST_NOT_ACTIVE, m)
  | some name =>
      match m.tierlists.getItem? name with
      | none => none
      | some tl =>
          let r := tl.add_member id data target_tier
          let m' : TierlistManager := ⟨m.tierlists.setItem name r.2, m.currently_active⟩
          if r.1 then some (.SUCCESS, m') else some (.INVALID_TIER, m')

/-- `remove_from_tierlist` (src/main.py lines 101-108), same conventions as
`add_to_tierlist`. -/
def remove_from_tierlist (m : TierlistManager) (id : Nat) :
    Option (TierlistError × TierlistManager) :=
  match m.currently_active with
  | none => some (.TIERLIST_NOT_ACTIVE, m)
  | some name =>
      match m.tierlists.getItem? name with
      | none => none
      | some tl =>
          let r := tl.remove_member id
          let m' : TierlistManager := ⟨m.tierlists.setItem name r.2, m.currently_active⟩
          if r.1 then some (.SUCCESS, m') else some (.USER_NOT_FOUND, m')

/-- The manager invariant as a checkable predicate: the active name, when
set, is a key of the `tierlists` dict, so the dict lookups in
`add_to_tierlist` and `remove_from_tierlist` cannot raise. -/
def activeOk (m : TierlistManager) : Bool :=
  match m.currently_active with
  | none => true
  | some name => m.tierlists.hasKey name

end TierlistManager

namespace TierlistRenderer

/-! Renderer geometry constants fixed in `TierlistRenderer.__init__`
(src/main.py lines 114-121). -/

def total_width : Nat := 1000
def avatar_size : Nat := 100
def padding : Nat := 10
def text_height : Nat := 20
def min_tier_height : Nat := 100

/-- `int(self.total_width * 0.15)`: `1000 * 0.15` rounds to exactly `150.0`
in IEEE double arithmetic, so the truncation yields 150. -/
def label_width : Nat := 150

def content_width : Nat := total_width - label_width

/-- The row capacity `content_width // unit_width` clamped to at least 1,
computed identically in `_calc_tier_height` and `_draw`
(src/main.py lines 143-146 and 212-216). -/
def avatars_per_row : Nat :=
  let apr := content_width / (avatar_size + padding)
  if apr < 1 then 1 else apr

/-- `_calc_tier_height` (src/main.py lines 139-152).  `math.ceil(n / k)` on
Python floats is the exact ceiling, written here as `(n + k - 1) / k` in
truncating Nat division (the float quotient is not exact above 2^52, far
beyond any member count). -/
def calc_tier_height (num_members : Nat) : Nat :=
  if num_members = 0 then min_tier_height + padding * 2
  else
    let unit_height := avatar_size + text_height + padding
    let required_rows := (num_members + avatars_per_row - 1) / avatars_per_row
    required_rows * unit_height + padding

/-- One drawing action of `_draw`, in execution order. -/
inductive DrawOp
  | labelRect (t : Tier) (y h : Nat)
  | labelText (t : Tier)
  | avatar (uid : Nat) (x y : Nat)
  | nameText (uid : Nat) (name : String) (x y : Nat)
  | separator (t : Tier) (y : Nat)
  deriving DecidableEq, Repr

/-- Display-name truncation (src/main.py lines 236-238). -/
def truncate_name (s : String) : String :=
  if s.length > 10 then s.take 9 ++ ".." else s

/-- The per-member loop of `_draw` (src/main.py lines 221-246): `avatarIds`
is the key set of the fetched `avatar_images` dict and `decode_ok uid` says
whether the `Image.open`/resize/paste block succeeds for `uid`'s bytes.  A
member whose id is absent from `avatarIds` produces no drawing at all; a
member whose decode fails still gets its name label (the `except` only skips
the paste). -/
def drawMembers (avatarIds : List Nat) (decode_ok : Nat → Bool)
    (start_x start_y : Nat) : Nat → List (Nat × Member) → List DrawOp
  | _, [] => []
  | index, (uid, mem) :: rest =>
      (if avatarIds.any (fun x => decide (x = uid)) then
        let col := index % avatars_per_row
        let row := index / avatars_per_row
        let x_pos := start_x + col * (avatar_size + padding)
        let y_pos := start_y + row * (avatar_size + text_height + padding)
        (if decode_ok uid then [DrawOp.avatar uid x_pos y_pos] else [])
          ++ [DrawOp.nameText uid (truncate_name mem.name)
                (x_pos + avatar_size / 2) (y_pos + avatar_size + 2)]
      else []) ++ drawMembers avatarIds decode_ok start_x start_y (index + 1) rest

/-- One tier band of `_draw` (src/main.py lines 192-254): label box, label
text, member grid, separator line. -/
def drawTierBand (tl : Tierlist) (avatarIds : List Nat) (decode_ok : Nat → Bool)
    (t : Tier) (current_y : Nat) : List DrawOp :=
  let row_h := calc_tier_height (tl.get t).length
  [DrawOp.labelRect t current_y row_h, DrawOp.labelText t]
    ++ drawMembers avatarIds decode_ok (label_width + padding) (current_y + padding)
        0 (tl.get t)
    ++ [DrawOp.separator t (current_y + row_h)]

/-- The band loop of `_draw` with its running `current_y` offset. -/
def drawBandsLoop (tl : Tierlist) (avatarIds : List Nat) (decode_ok : Nat → Bool) :
    Nat → List Tier → List DrawOp
  | _, [] => []
  | current_y, t :: ts =>
      drawTierBand tl avatarIds decode_ok t current_y
        ++ drawBandsLoop tl avatarIds decode_ok
            (current_y + calc_tier_height (tl.get t).length) ts

/-- The full sequence of drawing operations `_draw` performs
(src/main.py lines 179-254). -/
def drawOps (tl : Tierlist) (avatarIds : List Nat) (decode_ok : Nat → Bool) :
    List DrawOp :=
  drawBandsLoop tl avatarIds decode_ok 0 tierOrder

/-- The canvas height `total_canvas_height` computed by `_draw`
(src/main.py lines 180-186). -/
def drawTotalHeight (tl : Tierlist) : Nat :=
  tierOrder.foldl (fun acc t => acc + calc_tier_height (tl.get t).length) 0

/-- Does the op paste the avatar of `id`, or draw `id`'s name label? -/
def opMentions (id : Nat) : DrawOp → Bool
  | .avatar uid _ _ => decide (uid = id)
  | .nameText uid _ _ _ => decide (uid = id)
  | _ => false

/-- Is the op the name label of member `id`? -/
def opIsNameLabelFor (id : Nat) : DrawOp → Bool
  | .nameText uid _ _ _ => decide (uid = id)
  | _ => false

end TierlistRenderer

/-- Per-tier height formula exactly as the spec's §4.4 states it, for
comparison with `calc_tier_height`: avatars-per-row is
`floor((W - 0.15*W) / (A + P))` clamped to at least 1, with the renderer's
constants W=1000, A=100, P=10, T=20, M=100; `0.15 * W` is written `3*W/20`. -/
def height_spec (n : Nat) : Nat :=
  let W := 1000
  let A := 100
  let P := 10
  let T := 20
  let M := 100
  let k := max 1 ((W - 3 * W / 20) / (A + P))
  if n = 0 then M + 2 * P
  else ((n + k - 1) / k) * (A + T + P) + P

/-! Concrete states used by witnesses and counterexamples. -/

def mAlice : Member := ⟨"Alice", "uri1"⟩
def mBob : Member := ⟨"Bob", "uri2"⟩

/-- Tierlist holding Alice (id 1) then Bob (id 2) in tier S. -/
def tlAliceBobS : Tierlist := { Tierlist.empty with tierS := [(1, mAlice), (2, mBob)] }

/-- Tierlist holding only Bob under id 1 in tier S. -/
def tlBobS : Tierlist := { Tierlist.empty with tierS := [(1, mBob)] }

/-- Tierlist holding only Alice under id 1 in tier S. -/
def tlAliceS : Tierlist := { Tierlist.empty with tierS := [(1, mAlice)] }

/-- Manager with one empty list named "test", currently active. -/
def mgrActive : TierlistManager := ⟨[("test", Tierlist.empty)], some "test"⟩

/-- `mgrActive` after a successful `add_to_tierlist 1 mAlice S`. -/
def mgrAdded : TierlistManager := ⟨[("test", tlAliceS)], some "test"⟩

/-! ## Dictionary lemmas -/

namespace PyDict

variable {K V : Type} [DecidableEq K]

@[simp] theorem hasKey_nil (k : K) : hasKey ([] : PyDict K V) k = false := rfl

@[simp] theorem hasKey_cons (p : K × V) (d : PyDict K V) (k : K) :
    hasKey (p :: d) k = (decide (p.1 = k) || hasKey d k) := by
  simp [hasKey, List.any]

theorem delItem_cons (p : K × V) (d : PyDict K V) (k : K) :
    delItem (p :: d) k = if p.1 = k then delItem d k else p :: delItem d k := by
  by_cases hp : p.1 = k <;> simp [delItem, List.filter_cons, hp]

@[simp] theorem setItem_nil (k : K) (v : V) : setItem ([] : PyDict K V) k v = [(k, v)] := rfl

theorem setItem_cons (p : K × V) (d : PyDict K V) (k : K) (v : V) :
    setItem (p :: d) k v = if p.1 = k then (k, v) :: d else p :: setItem d k v := by
  obtain ⟨k', v'⟩ := p
  by_cases hp : k' = k <;> simp [setItem, hp]

theorem hasKey_delItem_self (d : PyDict K V) (k : K) :
    hasKey (delItem d k) k = false := by
  induction d with
  | nil => rfl
  | cons p rest ih =>
      rw [delItem_cons]
      by_cases hp : p.1 = k
      · simpa [hp] using ih
      · simp [hp, hasKey_cons, ih]

theorem hasKey_delItem_ne (d : PyDict K V) (k k' : K) (h : k' ≠ k) :
    hasKey (delItem d k) k' = hasKey d k' := by
  induction d with
  | nil => rfl
  | cons p rest ih =>
      rw [delItem_cons]
      by_cases hp : p.1 = k
      · simp [hp, hasKey_cons, Ne.symm h, ih]
      · simp [hp, hasKey_cons, ih]

theorem hasKey_setItem_self (d : PyDict K V) (k : K) (v : V) :
    hasKey (setItem d k v) k = true := by
  induction d with
  | nil => simp
  | cons p rest ih =>
      rw [setItem_cons]
      by_cases hp : p.1 = k <;> simp [hp, hasKey_cons, ih]

theorem hasKey_setItem_ne (d : PyDict K V) (k k' : K) (v : V) (h : k' ≠ k) :
    hasKey (setItem d k v) k' = hasKey d k' := by
  induction d with
  | nil => simp [hasKey_cons, Ne.symm h]
  | cons p rest ih =>
      rw [setItem_cons]
      by_cases hp : p.1 = k
      · simp [hp, hasKey_cons, Ne.symm h]
      · simp [hp, hasKey_cons, ih]

theorem hasKey_iff_getItem?_isSome (d : PyDict K V) (k : K) :
    hasKey d k = true ↔ (getItem? d k).isSome := by
  induction d with
  | nil => simp [getItem?]
  | cons p rest ih =>
      obtain ⟨k', v⟩ := p
      by_cases hp : k' = k <;> simp [getItem?, hp, ih]

theorem getItem?_eq_none_of_hasKey_false (d : PyDict K V) (k : K)
    (h : hasKey d k = false) : getItem? d k = none := by
  cases hg : getItem? d k with
  | none => rfl
  | some v =>
      have := (hasKey_iff_getItem?_isSome d k).2 (by simp [hg])
      rw [h] at this
      cases this

theorem getItem?_setItem_self (d : PyDict K V) (k : K) (v : V) :
    getItem? (setItem d k v) k = some v := by
  induction d with
  | nil => simp [getItem?]
  | cons p rest ih =>
      rw [setItem_cons]
      by_cases hp : p.1 = k <;> simp [hp, getItem?, ih]

theorem setItem_of_getItem?_eq (d : PyDict K V) (k : K) (v : V)
    (h : getItem? d k = some v) : setItem d k v = d := by
  induction d with
  | nil => simp [getItem?] at h
  | cons p rest ih =>
      obtain ⟨k', v'⟩ := p
      by_cases hp : k' = k
      · subst hp
        simp [getItem?] at h
        simp [setItem, h]
      · simp [getItem?, hp] at h
        simp [setItem, hp, ih h]

theorem setItem_of_hasKey_false (d : PyDict K V) (k : K) (v : V)
    (h : hasKey d k = false) : setItem d k v = d ++ [(k, v)] := by
  induction d with
  | nil => simp
  | cons p rest ih =>
      rw [setItem_cons]
      simp [hasKey_cons] at h
      simp [h.1, ih h.2]

theorem getItem?_append (d1 d2 : PyDict K V) (k : K) :
    getItem? (d1 ++ d2) k =
      match getItem? d1 k with
      | some v => some v
      | none => getItem? d2 k := by
  induction d1 with
  | nil => simp [getItem?]
  | cons p rest ih =>
      obtain ⟨k', v'⟩ := p
      by_cases hp : k' = k <;> simp [getItem?, hp, ih]

theorem getItem?_delItem_ne (d : PyDict K V) (k k' : K) (h : k' ≠ k) :
    getItem? (delItem d k) k' = getItem? d k' := by
  induction d with
  | nil => rfl
  | cons p rest ih =>
      obtain ⟨k0, v0⟩ := p
      rw [delItem_cons]
      by_cases hp : k0 = k
      · have : ¬ k0 = k' := fun hc => h (by rw [← hc]; exact hp)
        simp [hp, getItem?, this, Ne.symm h, ih]
      · by_cases hk' : k0 = k' <;> simp [hp, getItem?, hk', h, ih]

end PyDict

/-! ## Tierlist lemmas -/

theorem mem_tierOrder (t : Tier) : t ∈ tierOrder := by cases t <;> decide

namespace Tierlist

theorem get_set (tl : Tierlist) (t t' : Tier) (m : MemberMap) :
    (tl.set t m).get t' = if t' = t then m else tl.get t' := by
  cases t <;> cases t' <;> simp [get, set]

theorem set_set (tl : Tierlist) (t : Tier) (m m' : MemberMap) :
    (tl.set t m).set t m' = tl.set t m' := by
  cases t <;> rfl

/-- Keys other than the deleted one are untouched by the removal loop,
whatever tier they sit in. -/
theorem removeLoop_hasKey_ne (id id' : Nat) (h : id' ≠ id) (ts : List Tier) :
    ∀ (tl : Tierlist) (t : Tier),
      (((removeLoop tl id ts).2).get t).hasKey id' = (tl.get t).hasKey id' := by
  induction ts with
  | nil => intro tl t; rfl
  | cons t0 ts ih =>
      intro tl t
      by_cases h0 : (tl.get t0).hasKey id = true
      · simp only [removeLoop, h0, if_true]
        rw [get_set]
        by_cases ht : t = t0
        · subst ht
          simp [PyDict.hasKey_delItem_ne _ _ _ h]
        · simp [ht]
      · simp only [removeLoop, h0, if_false]
        exact ih tl t

/-- If a key survives the removal loop in some tier, it was there before. -/
theorem removeLoop_hasKey_imp (id : Nat) (ts : List Tier) :
    ∀ (tl : Tierlist) (t : Tier),
      (((removeLoop tl id ts).2).get t).hasKey id = true → (tl.get t).hasKey id = true := by
  induction ts with
  | nil => intro tl t h; exact h
  | cons t0 ts ih =>
      intro tl t
      by_cases h0 : (tl.get t0).hasKey id = true
      · simp only [removeLoop, h0, if_true]
        rw [get_set]
        by_cases ht : t = t0
        · subst ht
          simp [PyDict.hasKey_delItem_self]
        · simp [ht]
      · simp only [removeLoop, h0, if_false]
        exact ih tl t

/-- When `id` is held by at most one tier and every tier holding it is
listed in `ts`, the loop removes it everywhere. -/
theorem removeLoop_clears (id : Nat) (ts : List Tier) :
    ∀ (tl : Tierlist),
      (∀ t, t ∉ ts → (tl.get t).hasKey id = false) →
      (∀ t t', (tl.get t).hasKey id = true → (tl.get t').hasKey id = true → t = t') →
      ∀ t, (((removeLoop tl id ts).2).get t).hasKey id = false := by
  induction ts with
  | nil =>
      intro tl hout _ t
      exact hout t (List.not_mem_nil t)
  | cons t0 ts ih =>
      intro tl hout huniq t
      by_cases h0 : (tl.get t0).hasKey id = true
      · simp only [removeLoop, h0, if_true]
        rw [get_set]
        by_cases ht : t = t0
        · simp [ht, PyDict.hasKey_delItem_self]
        · simp only [if_neg ht]
          cases hc : (tl.get t).hasKey id with
          | false => rfl
          | true => exact absurd (huniq t t0 hc h0) ht
      · simp only [removeLoop, h0, if_false]
        refine ih tl ?_ huniq t
        intro t' ht'
        by_cases ht0 : t' = t0
        · subst ht0
          simpa using h0
        · refine hout t' ?_
          simp [ht0, ht']

/-- When `id` sits exactly in tier `T`, the loop deletes it from `T`. -/
theorem removeLoop_of_unique (id : Nat) (T : Tier) (ts : List Tier) :
    ∀ (tl : Tierlist), T ∈ ts →
      (tl.get T).hasKey id = true →
      (∀ t, t ≠ T → (tl.get t).hasKey id = false) →
      removeLoop tl id ts = (true, tl.set T ((tl.get T).delItem id)) := by
  induction ts with
  | nil => intro tl h; cases h
  | cons t0 ts ih =>
      intro tl hmem hT hout
      by_cases h0 : t0 = T
      · subst h0
        simp [removeLoop, hT]
      · have hfalse : (tl.get t0).hasKey id = false := hout t0 h0
        simp only [removeLoop, hfalse, Bool.false_eq_true, if_false]
        have : T ∈ ts := by
          cases hmem with
          | head => exact absurd rfl h0
          | tail _ h => exact h
        exact ih tl this hT hout

/-- After a successful `add_member` on a state satisfying the uniqueness
invariant, the id sits in the target tier and nowhere else. -/
theorem add_member_hasKey (tl : Tierlist) (id : Nat) (d : Member) (T : Tier)
    (huniq : tl.uniqueInv) :
    (((tl.add_member id d (some T)).2).get T).hasKey id = true ∧
    ∀ t, t ≠ T → (((tl.add_member id d (some T)).2).get t).hasKey id = false := by
  have hclear : ∀ t, (((removeLoop tl id tierOrder).2).get t).hasKey id = false :=
    removeLoop_clears id tierOrder tl
      (fun t ht => absurd (mem_tierOrder t) ht) (fun t t' => huniq id t t')
  constructor
  · simp only [add_member]
    rw [get_set, if_pos rfl]
    exact PyDict.hasKey_setItem_self _ _ _
  · intro t ht
    simp only [add_member]
    rw [get_set, if_neg ht]
    exact hclear t

/-- `add_member` does not disturb the membership of any other id. -/
theorem add_member_hasKey_ne (tl : Tierlist) (id id' : Nat) (d : Member) (T : Tier)
    (h : id' ≠ id) (t : Tier) :
    (((tl.add_member id d (some T)).2).get t).hasKey id' = (tl.get t).hasKey id' := by
  simp only [add_member]
  rw [get_set]
  by_cases ht : t = T
  · subst ht
    rw [if_pos rfl, PyDict.hasKey_setItem_ne _ _ _ _ h, removeLoop_hasKey_ne id id' h]
  · rw [if_neg ht, removeLoop_hasKey_ne id id' h]

/-- `add_member` preserves the uniqueness invariant. -/
theorem add_member_uniqueInv (tl : Tierlist) (id : Nat) (d : Member) (t? : Option Tier)
    (huniq : tl.uniqueInv) : ((tl.add_member id d t?).2).uniqueInv := by
  cases t? with
  | none => exact huniq
  | some T =>
      obtain ⟨hT, hout⟩ := add_member_hasKey tl id d T huniq
      intro i t t' h1 h2
      by_cases hi : i = id
      · subst hi
        by_cases ht : t = T
        · by_cases ht' : t' = T
          · rw [ht, ht']
          · rw [hout t' ht'] at h2
            cases h2
        · rw [hout t ht] at h1
          cases h1
      · rw [add_member_hasKey_ne tl id i d T hi t] at h1
        rw [add_member_hasKey_ne tl id i d T hi t'] at h2
        exact huniq i t t' h1 h2

/-- `remove_member` preserves the uniqueness invariant. -/
theorem remove_member_uniqueInv (tl : Tierlist) (id : Nat)
    (huniq : tl.uniqueInv) : ((tl.remove_member id).2).uniqueInv := by
  intro i t t' h1 h2
  by_cases hi : i = id
  · subst hi
    exact huniq i t t' (removeLoop_hasKey_imp i tierOrder tl t h1)
      (removeLoop_hasKey_imp i tierOrder tl t' h2)
  · rw [remove_member, removeLoop_hasKey_ne id i hi tierOrder tl t] at h1
    rw [remove_member, removeLoop_hasKey_ne id i hi tierOrder tl t'] at h2
    exact huniq i t t' h1 h2

end Tierlist

/-- Claim C1: every tierlist state reachable by add/remove calls keeps each
member id in at most one tier, and after `add_member id _ T1` followed by
`add_member id _ T2` with `T1 ≠ T2` the id is in T2's mapping and not in
T1's. -/
theorem c1_member_in_at_most_one_tier :
    (∀ tl, Tierlist.Reachable tl → tl.uniqueInv) ∧
    (∀ tl id d1 d2 T1 T2, Tierlist.Reachable tl → T1 ≠ T2 →
      ((((tl.add_member id d1 (some T1)).2.add_member id d2 (some T2)).2.get T2).hasKey id
          = true) ∧
      ((((tl.add_member id d1 (some T1)).2.add_member id d2 (some T2)).2.get T1).hasKey id
          = false)) := by
  have hreach : ∀ tl, Tierlist.Reachable tl → tl.uniqueInv := by
    intro tl hr
    induction hr with
    | init =>
        intro i t t' h1 h2
        cases t <;> cases h1
    | add tl id d t? _ ih => exact Tierlist.add_member_uniqueInv tl id d t? ih
    | remove tl id _ ih => exact Tierlist.remove_member_uniqueInv tl id ih
  refine ⟨hreach, ?_⟩
  intro tl id d1 d2 T1 T2 hr hne
  have h1 : ((tl.add_member id d1 (some T1)).2).uniqueInv :=
    Tierlist.add_member_uniqueInv tl id d1 (some T1) (hreach tl hr)
  obtain ⟨hin, hout⟩ := Tierlist.add_member_hasKey _ id d2 T2 h1
  exact ⟨hin, hout T1 hne⟩

/-- Witness for C1: from the empty tierlist, adding id 1 to S then to A
leaves it in A and not in S. -/
theorem c1_member_in_at_most_one_tier_witness :
    ((((Tierlist.empty.add_member 1 mAlice (some .S)).2.add_member 1 mBob (some .A)).2.get
        .A).hasKey 1 = true) ∧
    ((((Tierlist.empty.add_member 1 mAlice (some .S)).2.add_member 1 mBob (some .A)).2.get
        .S).hasKey 1 = false) :=
  c1_member_in_at_most_one_tier.2 Tierlist.empty 1 mAlice mBob .S .A
    Tierlist.Reachable.init (by decide)

/-- Counterexample to claim C3 as stated: with Alice (id 1) then Bob (id 2)
in tier S, re-adding Alice to S with her unchanged data moves her behind Bob
in the tier's insertion order, so the resulting tierlist differs from the
state before the call. -/
theorem c3_re_add_not_noop_counterexample :
    (tlAliceBobS.add_member 1 mAlice (some .S)).2 ≠ tlAliceBobS := by decide

/-- Claim C3 (amended): re-adding an id already in tier T with its current
data returns true and is equivalent to removal followed by insertion — the
member moves to the end of T's insertion order (so the grid layout can
change) while every tier's id-to-data contents are unchanged as a map; it is
a strict no-op only when the member is already last in T. -/
theorem c3_re_add_is_remove_then_append :
    ∀ (tl : Tierlist) (id : Nat) (d : Member) (T : Tier),
      (tl.get T).getItem? id = some d →
      (∀ t, t ≠ T → (tl.get t).hasKey id = false) →
      (tl.add_member id d (some T)).1 = true ∧
      (tl.add_member id d (some T)).2
          = tl.set T ((tl.get T).delItem id ++ [(id, d)]) ∧
      ∀ t i, (((tl.add_member id d (some T)).2).get t).getItem? i
          = (tl.get t).getItem? i := by
  intro tl id d T h1 hout
  have hKeyT : (tl.get T).hasKey id = true :=
    (PyDict.hasKey_iff_getItem?_isSome _ _).2 (by simp [h1])
  have hloop : Tierlist.removeLoop tl id tierOrder
      = (true, tl.set T ((tl.get T).delItem id)) :=
    Tierlist.removeLoop_of_unique id T tierOrder tl (mem_tierOrder T) hKeyT hout
  have hgetT : ((tl.set T ((tl.get T).delItem id)).get T) = (tl.get T).delItem id := by
    rw [Tierlist.get_set, if_pos rfl]
  have hstep : (tl.add_member id d (some T)).2
      = tl.set T ((tl.get T).delItem id ++ [(id, d)]) := by
    simp only [Tierlist.add_member, hloop, hgetT]
    rw [PyDict.setItem_of_hasKey_false _ _ _ (PyDict.hasKey_delItem_self _ _),
      Tierlist.set_set]
  refine ⟨by simp [Tierlist.add_member], hstep, ?_⟩
  intro t i
  rw [hstep, Tierlist.get_set]
  by_cases ht : t = T
  · rw [if_pos ht, ht]
    by_cases hi : i = id
    · rw [hi, PyDict.getItem?_append]
      rw [PyDict.getItem?_eq_none_of_hasKey_false _ _ (PyDict.hasKey_delItem_self _ _)]
      simp [PyDict.getItem?, h1]
    · rw [PyDict.getItem?_append, PyDict.getItem?_delItem_ne _ _ _ hi]
      cases hg : (tl.get T).getItem? i with
      | some v => rfl
      | none =>
          simp [PyDict.getItem?]
          exact fun hc => hi hc.symm
  · rw [if_neg ht]

/-- Witness for C3 (amended): Bob alone in S under id 1; re-adding him is
removal plus append, and the map contents of S are unchanged. -/
theorem c3_re_add_is_remove_then_append_witness :
    (tlBobS.add_member 1 mBob (some .S)).1 = true ∧
    (tlBobS.add_member 1 mBob (some .S)).2
        = tlBobS.set .S ((tlBobS.get .S).delItem 1 ++ [(1, mBob)]) ∧
    ((tlBobS.add_member 1 mBob (some .S)).2.get .S).getItem? 1
        = (tlBobS.get .S).getItem? 1 := by
  obtain ⟨h1, h2, h3⟩ :=
    c3_re_add_is_remove_then_append tlBobS 1 mBob .S (by decide) (by decide)
  exact ⟨h1, h2, h3 .S 1⟩

/-! ## Draw-trace lemmas for C2 -/

namespace TierlistRenderer

/-- Members whose id is absent from the fetched-avatar key set contribute no
drawing operation mentioning them in the member loop. -/
theorem drawMembers_no_mention (avatarIds : List Nat) (decode_ok : Nat → Bool)
    (id : Nat) (h : avatarIds.any (fun x => decide (x = id)) = false)
    (sx sy : Nat) (ms : List (Nat × Member)) :
    ∀ index, (drawMembers avatarIds decode_ok sx sy index ms).all
        (fun op => !(opMentions id op)) = true := by
  induction ms with
  | nil => intro index; rfl
  | cons p rest ih =>
      intro index
      obtain ⟨uid, mem⟩ := p
      rw [drawMembers, List.all_append, Bool.and_eq_true]
      refine ⟨?_, ih (index + 1)⟩
      by_cases hin : avatarIds.any (fun x => decide (x = uid)) = true
      · have huid : uid ≠ id := by
          intro hc
          rw [hc, h] at hin
          cases hin
        cases hd : decode_ok uid <;>
          simp [hin, hd, opMentions, huid]
      · simp only [Bool.not_eq_true] at hin
        simp [hin]

/-- One tier band draws nothing mentioning an unfetched member. -/
theorem drawTierBand_no_mention (tl : Tierlist) (avatarIds : List Nat)
    (decode_ok : Nat → Bool) (id : Nat)
    (h : avatarIds.any (fun x => decide (x = id)) = false) (t : Tier) (cy : Nat) :
    (drawTierBand tl avatarIds decode_ok t cy).all
        (fun op => !(opMentions id op)) = true := by
  show (([DrawOp.labelRect t cy (calc_tier_height (tl.get t).length), DrawOp.labelText t]
      ++ drawMembers avatarIds decode_ok (label_width + padding) (cy + padding) 0 (tl.get t)
      ++ [DrawOp.separator t (cy + calc_tier_height (tl.get t).length)]).all
      (fun op => !(opMentions id op))) = true
  rw [List.all_append, List.all_append, Bool.and_eq_true, Bool.and_eq_true]
  exact ⟨⟨rfl, drawMembers_no_mention avatarIds decode_ok id h _ _ _ 0⟩, rfl⟩

/-- The band loop draws nothing mentioning an unfetched member. -/
theorem drawBandsLoop_no_mention (tl : Tierlist) (avatarIds : List Nat)
    (decode_ok : Nat → Bool) (id : Nat)
    (h : avatarIds.any (fun x => decide (x = id)) = false) (ts : List Tier) :
    ∀ cy, (drawBandsLoop tl avatarIds decode_ok cy ts).all
        (fun op => !(opMentions id op)) = true := by
  induction ts with
  | nil => intro cy; rfl
  | cons t0 ts ih =>
      intro cy
      rw [drawBandsLoop, List.all_append, Bool.and_eq_true]
      exact ⟨drawTierBand_no_mention tl avatarIds decode_ok id h t0 cy, ih _⟩

end TierlistRenderer

/-- Counterexample to claim C2 as stated: Bob (id 1) sits in tier S and his
avatar fetch failed (id 1 is absent from the fetched-assets key set), yet the
draw trace contains no name-label operation for him — the claim asserts his
display-name label is present. -/
theorem c2_name_label_missing_counterexample :
    (TierlistRenderer.drawOps tlBobS [] (fun _ => true)).any
      (TierlistRenderer.opIsNameLabelFor 1) = false := by decide

/-- Claim C2 (amended): when a member's avatar fetch failed (its id is
absent from the fetched-assets key set), the draw step still completes (it
is a total function over the snapshot) and pastes no avatar for that member,
but — contrary to the claim — the member's name label is skipped as well:
no drawing operation mentions that member at all.  (Only a decode/paste
failure of fetched bytes keeps the label while skipping the avatar.) -/
theorem c2_fetch_failure_draws_nothing_for_member :
    ∀ (tl : Tierlist) (avatarIds : List Nat) (decode_ok : Nat → Bool) (id : Nat),
      avatarIds.any (fun x => decide (x = id)) = false →
      (TierlistRenderer.drawOps tl avatarIds decode_ok).all
        (fun op => !(TierlistRenderer.opMentions id op)) = true := by
  intro tl avatarIds decode_ok id h
  exact TierlistRenderer.drawBandsLoop_no_mention tl avatarIds decode_ok id h tierOrder 0

/-- Witness for C2 (amended) at a concrete snapshot: Bob (id 1) in S with an
empty fetched-assets set. -/
theorem c2_fetch_failure_draws_nothing_for_member_witness :
    (TierlistRenderer.drawOps tlBobS [] (fun _ => true)).all
      (fun op => !(TierlistRenderer.opMentions 1 op)) = true :=
  c2_fetch_failure_draws_nothing_for_member tlBobS [] (fun _ => true) 1 (by decide)

/-- Claim C4: with any list active, `begin_tierlist` rejects every name —
including the active one — with TIERLIST_ALREADY_ACTIVE and leaves the whole
manager state unchanged. -/
theorem c4_begin_rejected_when_active :
    ∀ (m : TierlistManager) (a name : String),
      m.currently_active = some a →
      m.begin_tierlist name = (.TIERLIST_ALREADY_ACTIVE, m) := by
  intro m a name h
  simp [TierlistManager.begin_tierlist, h]

/-- Witness for C4: the active manager rejects both a fresh name and its own
active name. -/
theorem c4_begin_rejected_when_active_witness :
    mgrActive.begin_tierlist "other" = (.TIERLIST_ALREADY_ACTIVE, mgrActive) ∧
    mgrActive.begin_tierlist "test" = (.TIERLIST_ALREADY_ACTIVE, mgrActive) :=
  ⟨c4_begin_rejected_when_active mgrActive "test" "other" rfl,
   c4_begin_rejected_when_active mgrActive "test" "test" rfl⟩

/-- Claim C5: with no active list, `end_tierlist`, `add_to_tierlist` and
`remove_from_tierlist` all return TIERLIST_NOT_ACTIVE and leave the manager
state unchanged (and the latter two raise nothing: they return `some`). -/
theorem c5_not_active_rejections :
    ∀ (m : TierlistManager), m.currently_active = none →
      m.end_tierlist = (.TIERLIST_NOT_ACTIVE, m) ∧
      (∀ (id : Nat) (d : Member) (t? : Option Tier),
        m.add_to_tierlist id d t? = some (.TIERLIST_NOT_ACTIVE, m)) ∧
      (∀ id : Nat, m.remove_from_tierlist id = some (.TIERLIST_NOT_ACTIVE, m)) := by
  intro m h
  refine ⟨?_, fun id d t? => ?_, fun id => ?_⟩ <;>
    simp [TierlistManager.end_tierlist, TierlistManager.add_to_tierlist,
      TierlistManager.remove_from_tierlist, h]

/-- Witness for C5 at the initial manager. -/
theorem c5_not_active_rejections_witness :
    TierlistManager.init.end_tierlist = (.TIERLIST_NOT_ACTIVE, TierlistManager.init) ∧
    TierlistManager.init.add_to_tierlist 1 mAlice (some .S)
        = some (.TIERLIST_NOT_ACTIVE, TierlistManager.init) ∧
    TierlistManager.init.remove_from_tierlist 1
        = some (.TIERLIST_NOT_ACTIVE, TierlistManager.init) :=
  ⟨(c5_not_active_rejections TierlistManager.init rfl).1,
   (c5_not_active_rejections TierlistManager.init rfl).2.1 1 mAlice (some .S),
   (c5_not_active_rejections TierlistManager.init rfl).2.2 1⟩

/-- Claim C6: with a list active (in any state satisfying the reachable-state
invariant that the active name is a key of the dict), `add_to_tierlist` with
a value that is not one of the six `Tier` enumeration members (modelled as
`none`) returns INVALID_TIER and leaves the manager state unchanged. -/
theorem c6_invalid_tier_rejected :
    ∀ (m : TierlistManager) (name : String),
      m.currently_active = some name → m.activeOk = true →
      ∀ (id : Nat) (d : Member),
        m.add_to_tierlist id d none = some (.INVALID_TIER, m) := by
  intro m name hact hok id d
  have hkey : m.tierlists.hasKey name = true := by
    rw [TierlistManager.activeOk, hact] at hok
    exact hok
  obtain ⟨tl, htl⟩ : ∃ tl, m.tierlists.getItem? name = some tl :=
    Option.isSome_iff_exists.mp ((PyDict.hasKey_iff_getItem?_isSome _ _).1 hkey)
  simp only [TierlistManager.add_to_tierlist, hact, htl, Tierlist.add_member]
  rw [if_neg (by simp)]
  have : m.tierlists.setItem name tl = m.tierlists :=
    PyDict.setItem_of_getItem?_eq _ _ _ htl
  rw [this]
  cases m
  simp at hact
  rw [hact]

/-- Witness for C6 at the concrete active manager. -/
theorem c6_invalid_tier_rejected_witness :
    mgrActive.add_to_tierlist 1 mAlice none = some (.INVALID_TIER, mgrActive) :=
  c6_invalid_tier_rejected mgrActive "test" rfl (by decide) 1 mAlice

/-- Claim C7: the renderer's height function equals the spec's closed
formula — `M + 2P` for zero members, else
`ceil(N / avatars_per_row) * (A + T + P) + P` with
`avatars_per_row = max 1 (floor((W - 0.15W) / (A + P)))` and the fixed
constants W=1000, A=100, P=10, T=20, M=100. -/
theorem c7_height_matches_spec_formula :
    ∀ n, TierlistRenderer.calc_tier_height n = height_spec n := by
  intro n
  by_cases h : n = 0
  · subst h; rfl
  · simp only [TierlistRenderer.calc_tier_height, height_spec, if_neg h]
    norm_num [TierlistRenderer.avatars_per_row, TierlistRenderer.content_width,
      TierlistRenderer.total_width, TierlistRenderer.label_width,
      TierlistRenderer.avatar_size, TierlistRenderer.padding,
      TierlistRenderer.text_height]

/-- Claim C8: the height function is monotonically non-decreasing in the
member count, constant on 1..avatars_per_row, and jumps at the row
boundary avatars_per_row to avatars_per_row + 1. -/
theorem c8_height_monotone_and_row_boundary :
    (∀ n, TierlistRenderer.calc_tier_height n ≤ TierlistRenderer.calc_tier_height (n + 1)) ∧
    (∀ i, 1 ≤ i → i ≤ TierlistRenderer.avatars_per_row →
      TierlistRenderer.calc_tier_height i = TierlistRenderer.calc_tier_height 1) ∧
    TierlistRenderer.calc_tier_height TierlistRenderer.avatars_per_row
      ≠ TierlistRenderer.calc_tier_height (TierlistRenderer.avatars_per_row + 1) := by
  have hpos : ∀ n, n ≠ 0 →
      TierlistRenderer.calc_tier_height n = ((n + 6) / 7) * 130 + 10 := by
    intro n h
    simp only [TierlistRenderer.calc_tier_height, if_neg h]
    norm_num [TierlistRenderer.avatars_per_row, TierlistRenderer.content_width,
      TierlistRenderer.total_width, TierlistRenderer.label_width,
      TierlistRenderer.avatar_size, TierlistRenderer.padding,
      TierlistRenderer.text_height]
  refine ⟨?_, ?_, by decide⟩
  · intro n
    cases n with
    | zero => decide
    | succ k =>
        rw [hpos (k + 1) (Nat.succ_ne_zero k), hpos (k + 2) (Nat.succ_ne_zero _)]
        have hdiv : (k + 1 + 6) / 7 ≤ (k + 2 + 6) / 7 := Nat.div_le_div_right (by omega)
        omega
  · intro i h1 h2
    have h7 : TierlistRenderer.avatars_per_row = 7 := by decide
    rw [h7] at h2
    interval_cases i <;> decide

/-- Witness for C8: at the row capacity (7 members) the height still equals
the one-member height. -/
theorem c8_height_monotone_and_row_boundary_witness :
    TierlistRenderer.calc_tier_height 7 = TierlistRenderer.calc_tier_height 1 :=
  c8_height_monotone_and_row_boundary.2.1 7 (by decide) (by decide)

/-- The running sum `_draw` accumulates over the tier dict equals the sum of
the six per-tier heights in S,A,B,C,D,F order. -/
theorem drawTotalHeight_eq_sum (tl : Tierlist) :
    TierlistRenderer.drawTotalHeight tl =
      TierlistRenderer.calc_tier_height tl.tierS.length
        + TierlistRenderer.calc_tier_height tl.tierA.length
        + TierlistRenderer.calc_tier_height tl.tierB.length
        + TierlistRenderer.calc_tier_height tl.tierC.length
        + TierlistRenderer.calc_tier_height tl.tierD.length
        + TierlistRenderer.calc_tier_height tl.tierF.length := by
  simp [TierlistRenderer.drawTotalHeight, tierOrder, Tierlist.get]

/-- Claim C9: the canvas height computed by the draw step is the sum over
the six tiers, in the fixed order S,A,B,C,D,F, of the per-tier layout
heights; for two members in S and none elsewhere it equals
`height_for(2) + 5 * height_for(0)`. -/
theorem c9_total_height_is_sum_over_tiers :
    (∀ tl, TierlistRenderer.drawTotalHeight tl =
      TierlistRenderer.calc_tier_height tl.tierS.length
        + TierlistRenderer.calc_tier_height tl.tierA.length
        + TierlistRenderer.calc_tier_height tl.tierB.length
        + TierlistRenderer.calc_tier_height tl.tierC.length
        + TierlistRenderer.calc_tier_height tl.tierD.length
        + TierlistRenderer.calc_tier_height tl.tierF.length) ∧
    (∀ tl, tl.tierS.length = 2 → tl.tierA = [] → tl.tierB = [] → tl.tierC = [] →
      tl.tierD = [] → tl.tierF = [] →
      TierlistRenderer.drawTotalHeight tl =
        TierlistRenderer.calc_tier_height 2 + 5 * TierlistRenderer.calc_tier_height 0) := by
  refine ⟨drawTotalHeight_eq_sum, ?_⟩
  intro tl hS hA hB hC hD hF
  rw [drawTotalHeight_eq_sum, hS, hA, hB, hC, hD, hF]
  simp only [List.length_nil]
  omega

/-- Witness for C9: Alice and Bob in S, all other tiers empty. -/
theorem c9_total_height_is_sum_over_tiers_witness :
    TierlistRenderer.drawTotalHeight tlAliceBobS =
      TierlistRenderer.calc_tier_height 2 + 5 * TierlistRenderer.calc_tier_height 0 :=
  c9_total_height_is_sum_over_tiers.2 tlAliceBobS rfl rfl rfl rfl rfl rfl

/-- Claim C10: every manager operation is a total function into the closed
five-value `TierlistError` enumeration (by its return type); the invariant
that the active name, when set, is a key of the `tierlists` dict holds for
the initial manager and is preserved by every operation, and under it the
dict lookups in `add_to_tierlist` and `remove_from_tierlist` cannot raise:
both return a `some` result. -/
theorem c10_operations_total_and_safe :
    TierlistManager.init.activeOk = true ∧
    ∀ (m : TierlistManager), m.activeOk = true →
      (∀ name, ((m.begin_tierlist name).2).activeOk = true) ∧
      ((m.end_tierlist).2).activeOk = true ∧
      (∀ (id : Nat) (d : Member) (t? : Option Tier),
        ∃ out, m.add_to_tierlist id d t? = some out ∧ out.2.activeOk = true) ∧
      (∀ id : Nat, ∃ out, m.remove_from_tierlist id = some out ∧ out.2.activeOk = true) := by
  refine ⟨rfl, ?_⟩
  intro m hok
  refine ⟨?_, ?_, ?_, ?_⟩
  · intro name
    cases hact : m.currently_active with
    | some a =>
        simp only [TierlistManager.begin_tierlist, hact]
        exact hok
    | none =>
        simp only [TierlistManager.begin_tierlist, hact]
        by_cases hkey : m.tierlists.hasKey name = true
        · simp [hkey, TierlistManager.activeOk]
        · simp only [Bool.not_eq_true] at hkey
          simp [hkey, TierlistManager.activeOk, PyDict.hasKey_setItem_self]
  · cases hact : m.currently_active with
    | some a => simp [TierlistManager.end_tierlist, hact, TierlistManager.activeOk]
    | none =>
        simp only [TierlistManager.end_tierlist, hact]
        exact hok
  · intro id d t?
    cases hact : m.currently_active with
    | none =>
        refine ⟨(.TIERLIST_NOT_ACTIVE, m), ?_, hok⟩
        simp [TierlistManager.add_to_tierlist, hact]
    | some name =>
        have hkey : m.tierlists.hasKey name = true := by
          rw [TierlistManager.activeOk, hact] at hok
          exact hok
        obtain ⟨tl, htl⟩ :=
          Option.isSome_iff_exists.mp ((PyDict.hasKey_iff_getItem?_isSome _ _).1 hkey)
        have hok' : (TierlistManager.mk
            (m.tierlists.setItem name (tl.add_member id d t?).2)
            m.currently_active).activeOk = true := by
          simp [TierlistManager.activeOk, hact, PyDict.hasKey_setItem_self]
        cases hr : (tl.add_member id d t?).1 with
        | true =>
            refine ⟨(.SUCCESS, TierlistManager.mk
              (m.tierlists.setItem name (tl.add_member id d t?).2) m.currently_active),
              ?_, hok'⟩
            simp [TierlistManager.add_to_tierlist, hact, htl, hr]
        | false =>
            refine ⟨(.INVALID_TIER, TierlistManager.mk
              (m.tierlists.setItem name (tl.add_member id d t?).2) m.currently_active),
              ?_, hok'⟩
            simp [TierlistManager.add_to_tierlist, hact, htl, hr]
  · intro id
    cases hact : m.currently_active with
    | none =>
        refine ⟨(.TIERLIST_NOT_ACTIVE, m), ?_, hok⟩
        simp [TierlistManager.remove_from_tierlist, hact]
    | some name =>
        have hkey : m.tierlists.hasKey name = true := by
          rw [TierlistManager.activeOk, hact] at hok
          exact hok
        obtain ⟨tl, htl⟩ :=
          Option.isSome_iff_exists.mp ((PyDict.hasKey_iff_getItem?_isSome _ _).1 hkey)
        have hok' : (TierlistManager.mk
            (m.tierlists.setItem name (tl.remove_member id).2)
            m.currently_active).activeOk = true := by
          simp [TierlistManager.activeOk, hact, PyDict.hasKey_setItem_self]
        cases hr : (tl.remove_member id).1 with
        | true =>
            refine ⟨(.SUCCESS, TierlistManager.mk
              (m.tierlists.setItem name (tl.remove_member id).2) m.currently_active),
              ?_, hok'⟩
            simp [TierlistManager.remove_from_tierlist, hact, htl, hr]
        | false =>
            refine ⟨(.USER_NOT_FOUND, TierlistManager.mk
              (m.tierlists.setItem name (tl.remove_member id).2) m.currently_active),
              ?_, hok'⟩
            simp [TierlistManager.remove_from_tierlist, hact, htl, hr]

/-- Witness for C10 at concrete managers: the invariant holds initially and
after each operation, and add/remove on the active manager return `some`. -/
theorem c10_operations_total_and_safe_witness :
    TierlistManager.init.activeOk = true ∧
    ((mgrActive.begin_tierlist "other").2).activeOk = true ∧
    ((mgrActive.end_tierlist).2).activeOk = true ∧
    (mgrActive.add_to_tierlist 1 mAlice (some .S)).isSome = true ∧
    (mgrActive.remove_from_tierlist 1).isSome = true := by
  obtain ⟨outa, ha, _⟩ :=
    (c10_operations_total_and_safe.2 mgrActive (by decide)).2.2.1 1 mAlice (some .S)
  obtain ⟨outr, hr, _⟩ :=
    (c10_operations_total_and_safe.2 mgrActive (by decide)).2.2.2 1
  exact ⟨c10_operations_total_and_safe.1,
    (c10_operations_total_and_safe.2 mgrActive (by decide)).1 "other",
    (c10_operations_total_and_safe.2 mgrActive (by decide)).2.1,
    by rw [ha]; rfl,
    by rw [hr]; rfl⟩
